import Mathlib

/-!
Verification of the fine-tuning pipeline of the
`finetune-deploy-bert-with-amazon-sagemaker` repository: a notebook that prepares
the IMDB dataset (shuffle/select/tokenize), launches a training job running an
external training script, and consumes its per-epoch evaluation metrics.
The notebook's data-preparation cells are embedded from the source; the training
script itself (config resolution, dataset loading, training/evaluation loop,
metrics computation, artifact write) is not part of the snapshot and is modelled
from the specification, as marked on each definition.
-/

namespace FinetuneBert

/-- An Example: fixed-length token-id sequence, attention mask of equal length,
and a binary label (the notebook renames the `label` column to `labels`). -/
structure Example where
  input_ids : List Nat
  attention_mask : List Nat
  labels : Nat
deriving DecidableEq

/-- Count the aligned label pairs satisfying a predicate. -/
def countPairs (p : Nat × Nat → Bool) (preds trues : List Nat) : Nat :=
  ((preds.zip trues).filter p).length

/-- True positives for the positive class (label 1). -/
def truePos (preds trues : List Nat) : Nat :=
  countPairs (fun x => x.1 == 1 && x.2 == 1) preds trues

/-- False positives for the positive class. -/
def falsePos (preds trues : List Nat) : Nat :=
  countPairs (fun x => x.1 == 1 && !(x.2 == 1)) preds trues

/-- False negatives for the positive class. -/
def falseNeg (preds trues : List Nat) : Nat :=
  countPairs (fun x => !(x.1 == 1) && x.2 == 1) preds trues

/-- Positions where predicted and true labels match exactly. -/
def exactMatches (preds trues : List Nat) : Nat :=
  countPairs (fun x => x.1 == x.2) preds trues

/-- The record returned by the metrics computer. -/
structure Metrics where
  accuracy : ℚ
  precision : ℚ
  «recall» : ℚ
  f1 : ℚ
deriving DecidableEq

/-- Modelled from the spec: the metrics computer (`compute_metrics`) of the training
script `scripts/train.py`, which the notebook uses as its training entry point but
which is missing from the repository snapshot. Accuracy is the exact-match fraction;
precision, recall and f1 are computed for the positive class (label 1), and a zero
denominator yields 0 instead of a division-by-zero failure. Rationals stand in for
the script's floating-point values. -/
def compute_metrics (preds trues : List Nat) : Metrics :=
  let tp : ℚ := truePos preds trues
  let fp : ℚ := falsePos preds trues
  let fneg : ℚ := falseNeg preds trues
  let acc : ℚ := (exactMatches preds trues : ℚ) / (trues.length : ℚ)
  let prec : ℚ := if tp + fp = 0 then 0 else tp / (tp + fp)
  let rcl : ℚ := if tp + fneg = 0 then 0 else tp / (tp + fneg)
  let f1 : ℚ := if prec + rcl = 0 then 0 else 2 * prec * rcl / (prec + rcl)
  ⟨acc, prec, rcl, f1⟩

/-- Validated immutable run configuration. -/
structure RunConfig where
  epochs : Nat
  train_batch_size : Nat
  model_name : String
  tokenizer_name : String
  output_dir : String
deriving DecidableEq

/-- The raw configuration mapping handed to the training script: each recognized
key is present or absent. -/
structure ConfigInput where
  epochs : Option Int
  train_batch_size : Option Int
  model_name : Option String
  tokenizer_name : Option String
  output_dir : Option String
deriving DecidableEq

/-- The error taxonomy of the run. -/
inductive TrainError where
  | ConfigError
  | DataLoadError
  | BatchShapeError (epoch batchIdx : Nat)
  | TrainingDivergedError (epoch batchIdx : Nat)
  | ArtifactWriteError
deriving DecidableEq

/-- The notebook's checkpoint directory, used as the default output directory. -/
def defaultOutputDir : String := "/opt/ml/checkpoints"

/-- A string is blank: empty or all whitespace. -/
def isBlank (s : String) : Bool :=
  s.data.all (fun c => c.isWhitespace)

/-- A string identifier is missing or blank. -/
def missingOrBlank : Option String → Bool
  | none => true
  | some s => isBlank s

/-- Modelled from the spec: the argument/config resolver of the missing training
script. Defaults epochs = 3 and train_batch_size = 32 are the notebook's
hyperparameters; a non-positive epoch count or batch size, or a missing/blank
model or tokenizer identifier, is a `ConfigError`; no other resource is touched. -/
def resolveConfig (input : ConfigInput) : Except TrainError RunConfig :=
  let ep := input.epochs.getD 3
  let bs := input.train_batch_size.getD 32
  match input.model_name, input.tokenizer_name with
  | some mn, some tn =>
    if ep ≤ 0 then .error .ConfigError
    else if bs ≤ 0 then .error .ConfigError
    else if isBlank mn then .error .ConfigError
    else if isBlank tn then .error .ConfigError
    else .ok { epochs := ep.toNat, train_batch_size := bs.toNat,
               model_name := mn, tokenizer_name := tn,
               output_dir := input.output_dir.getD defaultOutputDir }
  | _, _ => .error .ConfigError

/-- A training-batch loss value: a finite rational, or a non-finite float (NaN/Inf). -/
inductive LossVal where
  | finite (value : ℚ)
  | nonFinite
deriving DecidableEq

/-- The opaque numeric backend of a run, abstracted: per-(epoch, batch) training
loss, per-epoch predictions on the evaluation set, per-epoch evaluation loss and
wall-clock runtime of the evaluation pass. -/
structure TrainOracle where
  batchLoss : Nat → Nat → LossVal
  evalPreds : Nat → List Nat
  evalLoss : Nat → ℚ
  evalRuntime : Nat → ℚ

/-- Split a list into consecutive chunks of size `bs` (the final chunk may be
shorter); `fuel` bounds the recursion. -/
def toBatchesAux {α : Type} (bs : Nat) : Nat → List α → List (List α)
  | 0, _ => []
  | _, [] => []
  | fuel+1, xs => xs.take bs :: toBatchesAux bs fuel (xs.drop bs)

/-- The batches of a training set at the configured batch size. -/
def batches {α : Type} (bs : Nat) (xs : List α) : List (List α) :=
  toBatchesAux bs xs.length xs

/-- All Examples of a batch share the token-sequence length. -/
def batchConsistent : List Example → Bool
  | [] => true
  | e :: rest => rest.all (fun x => x.input_ids.length == e.input_ids.length)

/-- One epoch's pass over the training batches, starting at batch index `i`:
a shape-inconsistent batch aborts with `BatchShapeError`, a non-finite loss with
`TrainingDivergedError`; otherwise the pass completes. -/
def runTrainBatches (loss : Nat → LossVal) (epoch : Nat) :
    Nat → List (List Example) → Option TrainError
  | _, [] => none
  | i, b :: rest =>
    if batchConsistent b then
      match loss i with
      | .nonFinite => some (.TrainingDivergedError epoch i)
      | .finite _ => runTrainBatches loss epoch (i+1) rest
    else some (.BatchShapeError epoch i)

/-- One per-epoch evaluation record. -/
structure EvalMetrics where
  accuracy : ℚ
  precision : ℚ
  «recall» : ℚ
  f1 : ℚ
  loss : ℚ
  runtime : ℚ
  throughput : ℚ
  epoch : Nat
deriving DecidableEq

/-- The evaluation pass at the end of an epoch: metrics of the epoch's predictions
against the evaluation labels, evaluation loss, wall-clock runtime, and throughput
in examples per second. -/
def evalPass (oracle : TrainOracle) (evalSet : List Example) (epoch : Nat) : EvalMetrics :=
  let m := compute_metrics (oracle.evalPreds epoch) (evalSet.map (fun e => e.labels))
  { accuracy := m.accuracy, precision := m.precision, «recall» := m.«recall», f1 := m.f1,
    loss := oracle.evalLoss epoch,
    runtime := oracle.evalRuntime epoch,
    throughput := (evalSet.length : ℚ) / oracle.evalRuntime epoch,
    epoch := epoch }

/-- The epoch loop over the remaining epoch indices: train on all batches, then
evaluate; any batch error aborts the run. -/
def runEpochsFrom (oracle : TrainOracle) (cfg : RunConfig) (trainSet evalSet : List Example) :
    List Nat → Except TrainError (List EvalMetrics)
  | [] => .ok []
  | ep :: rest =>
    match runTrainBatches (oracle.batchLoss ep) ep 0 (batches cfg.train_batch_size trainSet) with
    | some err => .error err
    | none =>
      match runEpochsFrom oracle cfg trainSet evalSet rest with
      | .ok ms => .ok (evalPass oracle evalSet ep :: ms)
      | .error err => .error err

/-- Modelled from the spec: the training loop driver of the missing training script —
epochs run strictly sequentially, each epoch trains on the batches of the training set
and then produces one EvalMetrics record tagged with the epoch index. -/
def runTraining (oracle : TrainOracle) (cfg : RunConfig) (trainSet evalSet : List Example) :
    Except TrainError (List EvalMetrics) :=
  runEpochsFrom oracle cfg trainSet evalSet (List.range cfg.epochs)

/-- One on-disk record: each required field is present or absent. -/
structure RawRecord where
  input_ids : Option (List Nat)
  attention_mask : Option (List Nat)
  labels : Option Nat
deriving DecidableEq

/-- Convert one on-disk record; a missing required field is a `DataLoadError`. -/
def loadRecord (r : RawRecord) : Except TrainError Example :=
  match r.input_ids, r.attention_mask, r.labels with
  | some ids, some mask, some lab => .ok ⟨ids, mask, lab⟩
  | _, _, _ => .error .DataLoadError

/-- Convert the on-disk records in order, stopping at the first malformed one. -/
def loadRecords : List RawRecord → Except TrainError (List Example)
  | [] => .ok []
  | r :: rest =>
    match loadRecord r with
    | .error err => .error err
    | .ok e =>
      match loadRecords rest with
      | .error err => .error err
      | .ok es => .ok (e :: es)

/-- Modelled from the spec: the dataset loader of the missing training script.
A path resolves to `none` when unreadable and to `some records` — its on-disk
record sequence in on-disk order — when readable. -/
def loadDataset (disk : Option (List RawRecord)) : Except TrainError (List Example) :=
  match disk with
  | none => .error .DataLoadError
  | some records => loadRecords records

/-- The two input channels of the training job. -/
inductive Channel where
  | train
  | test
deriving DecidableEq

/-- Observable side effects of the run: a dataset-loader invocation on a channel,
or the artifact writer persisting the model. -/
inductive Event where
  | loaderInvoked (channel : Channel)
  | artifactWritten
deriving DecidableEq

/-- Modelled from the spec: the top-level run of the missing training script —
config resolution first, then the two dataset loads, then training, then the
artifact write; the event trace records loader and artifact-writer invocations. -/
def runPipeline (oracle : TrainOracle) (input : ConfigInput)
    (trainDisk evalDisk : Option (List RawRecord)) :
    List Event × Except TrainError (List EvalMetrics) :=
  match resolveConfig input with
  | .error err => ([], .error err)
  | .ok cfg =>
    match loadDataset trainDisk with
    | .error err => ([.loaderInvoked .train], .error err)
    | .ok trainSet =>
      match loadDataset evalDisk with
      | .error err => ([.loaderInvoked .train, .loaderInvoked .test], .error err)
      | .ok evalSet =>
        match runTraining oracle cfg trainSet evalSet with
        | .error err => ([.loaderInvoked .train, .loaderInvoked .test], .error err)
        | .ok ms =>
          ([.loaderInvoked .train, .loaderInvoked .test, .artifactWritten], .ok ms)

/-- From the source: the notebook's `tokenize` helper calls the tokenizer with
padding to the maximum length and truncation enabled — token ids are truncated to
`maxLen` and padded with `padId`, and the attention mask marks real tokens with 1
and padding with 0. `tok` abstracts the external tokenizer's text-to-token-ids map. -/
def tokenize (tok : String → List Nat) (maxLen padId : Nat) (text : String) (lab : Nat) :
    Example :=
  let ids := (tok text).take maxLen
  { input_ids := ids ++ List.replicate (maxLen - ids.length) padId,
    attention_mask := List.replicate ids.length 1 ++ List.replicate (maxLen - ids.length) 0,
    labels := lab }

/-- From the source: `dataset.shuffle().select(range(n))` — the unseeded shuffle is
an arbitrary permutation of the dataset, and `select(range(n))` keeps its first `n`
elements. -/
def selectRange {α : Type} (n : Nat) (xs : List α) : List α :=
  xs.take n

/-! ### Batching and training driver: helper lemmas -/

theorem mem_of_mem_toBatchesAux {α : Type} (bs : Nat) :
    ∀ (fuel : Nat) (xs b : List α), b ∈ toBatchesAux bs fuel xs → ∀ x ∈ b, x ∈ xs := by
  intro fuel
  induction fuel with
  | zero => intro xs b hb; simp [toBatchesAux] at hb
  | succ n ih =>
    intro xs b hb x hx
    cases xs with
    | nil => simp [toBatchesAux] at hb
    | cons y ys =>
      simp only [toBatchesAux] at hb
      rcases List.mem_cons.mp hb with h | h
      · exact List.take_subset _ _ (h ▸ hx)
      · exact List.drop_subset _ _ (ih _ b h x hx)

theorem mem_of_mem_batches {α : Type} (bs : Nat) (xs b : List α)
    (hb : b ∈ batches bs xs) : ∀ x ∈ b, x ∈ xs :=
  mem_of_mem_toBatchesAux bs xs.length xs b hb

theorem batchConsistent_of_uniform (b : List Example) (L : Nat)
    (h : ∀ x ∈ b, x.input_ids.length = L) : batchConsistent b = true := by
  cases b with
  | nil => rfl
  | cons e rest =>
    simp only [batchConsistent, List.all_eq_true, beq_iff_eq]
    intro x hx
    rw [h x (List.mem_cons_of_mem e hx), h e (List.mem_cons_self e rest)]

theorem runTrainBatches_dichotomy (loss : Nat → LossVal) (ep : Nat) :
    ∀ (bats : List (List Example)) (i : Nat),
      (∀ b ∈ bats, batchConsistent b = true) →
      runTrainBatches loss ep i bats = none ∨
        ∃ k, runTrainBatches loss ep i bats = some (.TrainingDivergedError ep k) := by
  intro bats
  induction bats with
  | nil => intro i _; left; rfl
  | cons b rest ih =>
    intro i h
    have hb := h b (List.mem_cons_self b rest)
    have hrest := fun b' hb' => h b' (List.mem_cons_of_mem b hb')
    cases hl : loss i with
    | nonFinite => right; exact ⟨i, by simp [runTrainBatches, hb, hl]⟩
    | finite v =>
      rcases ih (i+1) hrest with hnone | ⟨k, hk⟩
      · left; simp [runTrainBatches, hb, hl, hnone]
      · right; exact ⟨k, by simp [runTrainBatches, hb, hl, hk]⟩

theorem runTrainBatches_diverges (loss : Nat → LossVal) (ep : Nat) :
    ∀ (bats : List (List Example)) (i : Nat),
      (∀ b ∈ bats, batchConsistent b = true) →
      (∃ j, j < bats.length ∧ loss (i + j) = .nonFinite) →
      ∃ k, runTrainBatches loss ep i bats = some (.TrainingDivergedError ep k) := by
  intro bats
  induction bats with
  | nil => intro i _ hj; obtain ⟨j, hj, _⟩ := hj; simp at hj
  | cons b rest ih =>
    intro i h hj
    have hb := h b (List.mem_cons_self b rest)
    cases hl : loss i with
    | nonFinite => exact ⟨i, by simp [runTrainBatches, hb, hl]⟩
    | finite v =>
      obtain ⟨j, hjlen, hnf⟩ := hj
      cases j with
      | zero => simp [hl] at hnf
      | succ j' =>
        have hrest := fun b' hb' => h b' (List.mem_cons_of_mem b hb')
        have hj' : ∃ j, j < rest.length ∧ loss ((i+1) + j) = .nonFinite := by
          refine ⟨j', by simpa using hjlen, ?_⟩
          rw [show i + 1 + j' = i + (j' + 1) from by omega]
          exact hnf
        obtain ⟨k, hk⟩ := ih (i+1) hrest hj'
        exact ⟨k, by simp [runTrainBatches, hb, hl, hk]⟩

theorem runTrainBatches_clean (loss : Nat → LossVal) (ep : Nat) :
    ∀ (bats : List (List Example)) (i : Nat),
      (∀ b ∈ bats, batchConsistent b = true) →
      (∀ j, loss j ≠ .nonFinite) →
      runTrainBatches loss ep i bats = none := by
  intro bats
  induction bats with
  | nil => intro i _ _; rfl
  | cons b rest ih =>
    intro i h hf
    have hb := h b (List.mem_cons_self b rest)
    have hrest := fun b' hb' => h b' (List.mem_cons_of_mem b hb')
    cases hl : loss i with
    | nonFinite => exact absurd hl (hf i)
    | finite v => simp [runTrainBatches, hb, hl, ih (i+1) hrest hf]

theorem runEpochsFrom_ok_eq_map (oracle : TrainOracle) (cfg : RunConfig)
    (trainSet evalSet : List Example) :
    ∀ (eps : List Nat) (ms : List EvalMetrics),
      runEpochsFrom oracle cfg trainSet evalSet eps = .ok ms →
      ms = eps.map (evalPass oracle evalSet) := by
  intro eps
  induction eps with
  | nil =>
    intro ms h
    simp only [runEpochsFrom, Except.ok.injEq] at h
    simp [← h]
  | cons ep rest ih =>
    intro ms h
    cases htb : runTrainBatches (oracle.batchLoss ep) ep 0 (batches cfg.train_batch_size trainSet) with
    | some err => simp [runEpochsFrom, htb] at h
    | none =>
      cases hrec : runEpochsFrom oracle cfg trainSet evalSet rest with
      | error err => simp [runEpochsFrom, htb, hrec] at h
      | ok ms' =>
        simp only [runEpochsFrom, htb, hrec, Except.ok.injEq] at h
        rw [← h, List.map_cons, ih ms' hrec]

theorem runEpochsFrom_dichotomy (oracle : TrainOracle) (cfg : RunConfig)
    (trainSet evalSet : List Example)
    (hcons : ∀ b ∈ batches cfg.train_batch_size trainSet, batchConsistent b = true) :
    ∀ eps : List Nat,
      (∃ ms, runEpochsFrom oracle cfg trainSet evalSet eps = .ok ms) ∨
      (∃ e k, runEpochsFrom oracle cfg trainSet evalSet eps =
          .error (.TrainingDivergedError e k)) := by
  intro eps
  induction eps with
  | nil => left; exact ⟨[], rfl⟩
  | cons ep rest ih =>
    rcases runTrainBatches_dichotomy (oracle.batchLoss ep) ep
        (batches cfg.train_batch_size trainSet) 0 hcons with hnone | ⟨k, hk⟩
    · rcases ih with ⟨ms, hms⟩ | ⟨e, k, hk⟩
      · left; exact ⟨evalPass oracle evalSet ep :: ms, by simp [runEpochsFrom, hnone, hms]⟩
      · right; exact ⟨e, k, by simp [runEpochsFrom, hnone, hk]⟩
    · right; exact ⟨ep, k, by simp [runEpochsFrom, hk]⟩

theorem runEpochsFrom_diverges (oracle : TrainOracle) (cfg : RunConfig)
    (trainSet evalSet : List Example)
    (hcons : ∀ b ∈ batches cfg.train_batch_size trainSet, batchConsistent b = true) :
    ∀ eps : List Nat,
      (∃ ep ∈ eps, ∃ j, j < (batches cfg.train_batch_size trainSet).length ∧
          oracle.batchLoss ep j = .nonFinite) →
      ∃ e k, runEpochsFrom oracle cfg trainSet evalSet eps =
        .error (.TrainingDivergedError e k) := by
  intro eps
  induction eps with
  | nil => intro h; simp at h
  | cons ep rest ih =>
    intro h
    rcases runTrainBatches_dichotomy (oracle.batchLoss ep) ep
        (batches cfg.train_batch_size trainSet) 0 hcons with hnone | ⟨k, hk⟩
    · obtain ⟨ep', hmem, j, hjlen, hnf⟩ := h
      rcases List.mem_cons.mp hmem with rfl | hmem'
      · obtain ⟨k, hk⟩ := runTrainBatches_diverges (oracle.batchLoss ep') ep'
          (batches cfg.train_batch_size trainSet) 0 hcons ⟨j, hjlen, by simpa using hnf⟩
        rw [hnone] at hk
        cases hk
      · obtain ⟨e, k, hk⟩ := ih ⟨ep', hmem', j, hjlen, hnf⟩
        exact ⟨e, k, by simp [runEpochsFrom, hnone, hk]⟩
    · exact ⟨ep, k, by simp [runEpochsFrom, hk]⟩

theorem runEpochsFrom_clean_ok (oracle : TrainOracle) (cfg : RunConfig)
    (trainSet evalSet : List Example)
    (hcons : ∀ b ∈ batches cfg.train_batch_size trainSet, batchConsistent b = true)
    (hf : ∀ e j, oracle.batchLoss e j ≠ .nonFinite) :
    ∀ eps : List Nat,
      runEpochsFrom oracle cfg trainSet evalSet eps = .ok (eps.map (evalPass oracle evalSet)) := by
  intro eps
  induction eps with
  | nil => rfl
  | cons ep rest ih =>
    have hn := runTrainBatches_clean (oracle.batchLoss ep) ep
      (batches cfg.train_batch_size trainSet) 0 hcons (hf ep)
    simp [runEpochsFrom, hn, ih]

/-! ### Metrics computer: helper lemmas -/

theorem unitInterval_div (a b : ℚ) (h0 : 0 ≤ a) (hab : a ≤ b) : 0 ≤ a / b ∧ a / b ≤ 1 := by
  rcases eq_or_lt_of_le (le_trans h0 hab) with hb | hb
  · have ha : a = 0 := le_antisymm (hb ▸ hab) h0
    simp [ha]
  · exact ⟨div_nonneg h0 hb.le, (div_le_one hb).mpr hab⟩

theorem exactMatches_le (preds trues : List Nat) : exactMatches preds trues ≤ trues.length := by
  unfold exactMatches countPairs
  calc ((preds.zip trues).filter (fun x => x.1 == x.2)).length
      ≤ (preds.zip trues).length := List.length_filter_le _ _
    _ ≤ trues.length := by rw [List.length_zip]; exact Nat.min_le_right _ _

theorem exactMatches_cons (p t : Nat) (ps ts : List Nat) :
    exactMatches (p :: ps) (t :: ts) = (if p = t then 1 else 0) + exactMatches ps ts := by
  by_cases h : p = t <;>
    simp [exactMatches, countPairs, List.filter_cons, h, Nat.add_comm]

theorem exactMatches_eq_card (preds : List Nat) : ∀ (trues : List Nat),
    preds.length = trues.length →
    exactMatches preds trues =
      ((Finset.range trues.length).filter (fun i => preds.getD i 0 = trues.getD i 0)).card := by
  induction preds with
  | nil =>
    intro trues h
    cases trues with
    | nil => simp [exactMatches, countPairs]
    | cons t ts => simp at h
  | cons p ps ih =>
    intro trues h
    cases trues with
    | nil => simp at h
    | cons t ts =>
      have h' : ps.length = ts.length := by simpa using h
      rw [exactMatches_cons, ih ts h', Finset.card_filter, Finset.card_filter,
          List.length_cons, Finset.sum_range_succ']
      simp only [List.getD_cons_succ, List.getD_cons_zero]
      exact Nat.add_comm _ _

theorem compute_metrics_accuracy (preds trues : List Nat) :
    (compute_metrics preds trues).accuracy =
      (exactMatches preds trues : ℚ) / (trues.length : ℚ) := rfl

theorem compute_metrics_precision (preds trues : List Nat) :
    (compute_metrics preds trues).precision =
      (if (truePos preds trues : ℚ) + (falsePos preds trues : ℚ) = 0 then 0
       else (truePos preds trues : ℚ) /
            ((truePos preds trues : ℚ) + (falsePos preds trues : ℚ))) := rfl

theorem compute_metrics_recall (preds trues : List Nat) :
    (compute_metrics preds trues).«recall» =
      (if (truePos preds trues : ℚ) + (falseNeg preds trues : ℚ) = 0 then 0
       else (truePos preds trues : ℚ) /
            ((truePos preds trues : ℚ) + (falseNeg preds trues : ℚ))) := rfl

theorem compute_metrics_f1 (preds trues : List Nat) :
    (compute_metrics preds trues).f1 =
      (if (compute_metrics preds trues).precision + (compute_metrics preds trues).«recall» = 0
       then 0
       else 2 * (compute_metrics preds trues).precision * (compute_metrics preds trues).«recall» /
            ((compute_metrics preds trues).precision + (compute_metrics preds trues).«recall»)) :=
  rfl

theorem compute_metrics_precision_unit (preds trues : List Nat) :
    0 ≤ (compute_metrics preds trues).precision ∧ (compute_metrics preds trues).precision ≤ 1 := by
  rw [compute_metrics_precision]
  split_ifs with h
  · norm_num
  · apply unitInterval_div _ _ (by positivity)
    have hfp : (0 : ℚ) ≤ (falsePos preds trues : ℚ) := by positivity
    linarith

theorem compute_metrics_recall_unit (preds trues : List Nat) :
    0 ≤ (compute_metrics preds trues).«recall» ∧ (compute_metrics preds trues).«recall» ≤ 1 := by
  rw [compute_metrics_recall]
  split_ifs with h
  · norm_num
  · apply unitInterval_div _ _ (by positivity)
    have hfn : (0 : ℚ) ≤ (falseNeg preds trues : ℚ) := by positivity
    linarith

theorem compute_metrics_f1_unit (preds trues : List Nat) :
    0 ≤ (compute_metrics preds trues).f1 ∧ (compute_metrics preds trues).f1 ≤ 1 := by
  obtain ⟨hp0, hp1⟩ := compute_metrics_precision_unit preds trues
  obtain ⟨hr0, hr1⟩ := compute_metrics_recall_unit preds trues
  rw [compute_metrics_f1]
  split_ifs with h
  · norm_num
  · constructor
    · exact div_nonneg (mul_nonneg (mul_nonneg (by norm_num) hp0) hr0) (add_nonneg hp0 hr0)
    · have hpr : 0 < (compute_metrics preds trues).precision + (compute_metrics preds trues).«recall» :=
        lt_of_le_of_ne (add_nonneg hp0 hr0) (Ne.symm h)
      rw [div_le_one hpr]
      nlinarith [mul_nonneg (sub_nonneg.mpr hp1) hr0, mul_nonneg (sub_nonneg.mpr hr1) hp0]

theorem truePos_eq_zero_of_allzero (preds trues : List Nat) (h : ∀ t ∈ trues, t = 0) :
    truePos preds trues = 0 := by
  unfold truePos countPairs
  rw [List.length_eq_zero, List.filter_eq_nil_iff]
  rintro ⟨a, b⟩ hx
  have hb := (List.of_mem_zip hx).2
  simp [h b hb]

theorem falseNeg_eq_zero_of_allzero (preds trues : List Nat) (h : ∀ t ∈ trues, t = 0) :
    falseNeg preds trues = 0 := by
  unfold falseNeg countPairs
  rw [List.length_eq_zero, List.filter_eq_nil_iff]
  rintro ⟨a, b⟩ hx
  have hb := (List.of_mem_zip hx).2
  simp [h b hb]

/-! ### Claims about the metrics computer -/

/-- C1: the metrics computer on predicted labels [1,0,1,1] and true labels [1,0,0,1]
returns exactly accuracy = 3/4, precision = 2/3, recall = 1 and f1 = 4/5. -/
theorem metrics_worked_example :
    compute_metrics [1, 0, 1, 1] [1, 0, 0, 1] = ⟨3/4, 2/3, 1, 4/5⟩ := by
  simp [compute_metrics, truePos, falsePos, falseNeg, exactMatches, countPairs]
  norm_num

/-- C2: on equal-length, non-empty label sequences the metrics computer's accuracy is
exactly the fraction of positions where the two sequences match, and all four returned
values lie in the closed interval [0, 1]. -/
theorem metrics_accuracy_fraction_and_unit_interval (preds trues : List Nat)
    (hlen : preds.length = trues.length) (_hne : trues.length ≠ 0) :
    (compute_metrics preds trues).accuracy =
      ((((Finset.range trues.length).filter
          (fun i => preds.getD i 0 = trues.getD i 0)).card : ℚ) / (trues.length : ℚ)) ∧
    (0 ≤ (compute_metrics preds trues).accuracy ∧ (compute_metrics preds trues).accuracy ≤ 1) ∧
    (0 ≤ (compute_metrics preds trues).precision ∧ (compute_metrics preds trues).precision ≤ 1) ∧
    (0 ≤ (compute_metrics preds trues).«recall» ∧ (compute_metrics preds trues).«recall» ≤ 1) ∧
    (0 ≤ (compute_metrics preds trues).f1 ∧ (compute_metrics preds trues).f1 ≤ 1) := by
  refine ⟨?_, ?_, compute_metrics_precision_unit preds trues,
          compute_metrics_recall_unit preds trues, compute_metrics_f1_unit preds trues⟩
  · rw [compute_metrics_accuracy, exactMatches_eq_card preds trues hlen]
  · rw [compute_metrics_accuracy]
    apply unitInterval_div _ _ (by positivity)
    exact_mod_cast exactMatches_le preds trues

/-- Witness for C2 at predicted labels [1,0] and true labels [1,1]. -/
theorem metrics_accuracy_fraction_and_unit_interval_witness :
    (compute_metrics [1, 0] [1, 1]).accuracy =
      ((((Finset.range 2).filter
          (fun i => [1, 0].getD i 0 = [1, 1].getD i 0)).card : ℚ) / (2 : ℚ)) ∧
    (0 ≤ (compute_metrics [1, 0] [1, 1]).accuracy ∧ (compute_metrics [1, 0] [1, 1]).accuracy ≤ 1) ∧
    (0 ≤ (compute_metrics [1, 0] [1, 1]).precision ∧
      (compute_metrics [1, 0] [1, 1]).precision ≤ 1) ∧
    (0 ≤ (compute_metrics [1, 0] [1, 1]).«recall» ∧
      (compute_metrics [1, 0] [1, 1]).«recall» ≤ 1) ∧
    (0 ≤ (compute_metrics [1, 0] [1, 1]).f1 ∧ (compute_metrics [1, 0] [1, 1]).f1 ≤ 1) :=
  metrics_accuracy_fraction_and_unit_interval [1, 0] [1, 1] rfl (by decide)

/-- C3 counterexample: on predicted labels [1] and true labels [1] the sequences contain
only one class (the positive one), yet precision and recall are 1, not 0. -/
theorem metrics_one_class_counterexample :
    ¬ ((compute_metrics [1] [1]).precision = 0 ∧ (compute_metrics [1] [1]).«recall» = 0) ∧
    (compute_metrics [1] [1]).precision = 1 ∧ (compute_metrics [1] [1]).«recall» = 1 := by
  refine ⟨?_, ?_, ?_⟩ <;>
    simp [compute_metrics, truePos, falsePos, falseNeg, exactMatches, countPairs]

/-- C3 amended: whenever the true-label sequence is all-zero (no positive labels), the
metrics computer returns precision = 0, recall = 0 (and hence f1 = 0) for the positive
class via the zero-denominator tie-break, never a division failure. -/
theorem metrics_allzero_true_defaults (preds trues : List Nat) (h : ∀ t ∈ trues, t = 0) :
    (compute_metrics preds trues).precision = 0 ∧
    (compute_metrics preds trues).«recall» = 0 ∧
    (compute_metrics preds trues).f1 = 0 := by
  have htp := truePos_eq_zero_of_allzero preds trues h
  have hfn := falseNeg_eq_zero_of_allzero preds trues h
  have hprec : (compute_metrics preds trues).precision = 0 := by
    rw [compute_metrics_precision, htp]
    push_cast
    split_ifs <;> simp
  have hrcl : (compute_metrics preds trues).«recall» = 0 := by
    rw [compute_metrics_recall, htp, hfn]
    push_cast
    simp
  refine ⟨hprec, hrcl, ?_⟩
  rw [compute_metrics_f1, hprec, hrcl]
  simp

/-- Witness for the amended C3 at predicted labels [1,0] and the all-zero true-label
sequence [0,0]. -/
theorem metrics_allzero_true_defaults_witness :
    (compute_metrics [1, 0] [0, 0]).precision = 0 ∧
    (compute_metrics [1, 0] [0, 0]).«recall» = 0 ∧
    (compute_metrics [1, 0] [0, 0]).f1 = 0 :=
  metrics_allzero_true_defaults [1, 0] [0, 0] (by simp)

/-! ### Config resolver: helper lemma -/

theorem resolveConfig_rejects (input : ConfigInput)
    (hbad : (∃ e, input.epochs = some e ∧ e ≤ 0) ∨
            (∃ b, input.train_batch_size = some b ∧ b ≤ 0) ∨
            missingOrBlank input.model_name = true ∨
            missingOrBlank input.tokenizer_name = true) :
    resolveConfig input = .error .ConfigError := by
  unfold resolveConfig
  cases hmn : input.model_name with
  | none => rfl
  | some mn =>
    cases htn : input.tokenizer_name with
    | none => rfl
    | some tn =>
      dsimp only
      split_ifs with h1 h2 h3 h4 <;> try rfl
      exfalso
      rcases hbad with ⟨e, he, he0⟩ | ⟨b, hb, hb0⟩ | hm | ht
      · rw [he] at h1; exact h1 (by simpa using he0)
      · rw [hb] at h2; exact h2 (by simpa using hb0)
      · rw [hmn] at hm; simp only [missingOrBlank] at hm; exact h3 hm
      · rw [htn] at ht; simp only [missingOrBlank] at ht; exact h4 ht

/-! ### Claims about the training loop driver and pipeline -/

/-- C4: a completed run with epoch count n produces exactly n EvalMetrics records,
tagged with epoch indices 0 through n-1 in this time order, each with positive
runtime and positive throughput (given positive wall-clock evaluation runtimes and a
non-empty evaluation set). -/
theorem runTraining_one_record_per_epoch (oracle : TrainOracle) (cfg : RunConfig)
    (trainSet evalSet : List Example) (ms : List EvalMetrics)
    (hok : runTraining oracle cfg trainSet evalSet = .ok ms)
    (hrt : ∀ ep, 0 < oracle.evalRuntime ep)
    (hev : 0 < evalSet.length) :
    ms.length = cfg.epochs ∧
    ∀ i (h : i < ms.length),
      (ms.get ⟨i, h⟩).epoch = i ∧
      0 < (ms.get ⟨i, h⟩).runtime ∧
      0 < (ms.get ⟨i, h⟩).throughput := by
  have hmap := runEpochsFrom_ok_eq_map oracle cfg trainSet evalSet (List.range cfg.epochs) ms hok
  subst hmap
  refine ⟨by simp, ?_⟩
  intro i h
  have hget : ((List.range cfg.epochs).map (evalPass oracle evalSet)).get ⟨i, h⟩ =
      evalPass oracle evalSet i := by
    rw [List.get_eq_getElem, List.getElem_map, List.getElem_range]
  rw [hget]
  refine ⟨rfl, hrt i, ?_⟩
  show 0 < (evalSet.length : ℚ) / oracle.evalRuntime i
  exact div_pos (by exact_mod_cast hev) (hrt i)

/-- Witness for C4: the spec's end-to-end scenario — a 4-example training set,
a 2-example evaluation set, batch size 2 and epoch count 2 — produces exactly
2 records with epoch indices 0 and 1, positive runtime and positive throughput. -/
theorem runTraining_one_record_per_epoch_witness :
    ([(⟨1, 1, 1, 1, 1, 1, 2, 0⟩ : EvalMetrics), ⟨1, 1, 1, 1, 1, 1, 2, 1⟩].length = 2) ∧
    ∀ i (h : i < [(⟨1, 1, 1, 1, 1, 1, 2, 0⟩ : EvalMetrics), ⟨1, 1, 1, 1, 1, 1, 2, 1⟩].length),
      ([(⟨1, 1, 1, 1, 1, 1, 2, 0⟩ : EvalMetrics), ⟨1, 1, 1, 1, 1, 1, 2, 1⟩].get ⟨i, h⟩).epoch = i ∧
      0 < ([(⟨1, 1, 1, 1, 1, 1, 2, 0⟩ : EvalMetrics), ⟨1, 1, 1, 1, 1, 1, 2, 1⟩].get ⟨i, h⟩).runtime ∧
      0 < ([(⟨1, 1, 1, 1, 1, 1, 2, 0⟩ : EvalMetrics), ⟨1, 1, 1, 1, 1, 1, 2, 1⟩].get ⟨i, h⟩).throughput :=
  runTraining_one_record_per_epoch
    ⟨fun _ _ => .finite 1, fun _ => [1, 0], fun _ => 1, fun _ => 1⟩
    ⟨2, 2, "m", "t", "o"⟩
    [⟨[1, 2], [1, 1], 1⟩, ⟨[3, 4], [1, 1], 0⟩, ⟨[5, 6], [1, 1], 1⟩, ⟨[7, 8], [1, 1], 0⟩]
    [⟨[1, 2], [1, 1], 1⟩, ⟨[3, 4], [1, 1], 0⟩]
    [⟨1, 1, 1, 1, 1, 1, 2, 0⟩, ⟨1, 1, 1, 1, 1, 1, 2, 1⟩]
    (by simp [runTraining, runEpochsFrom, runTrainBatches, batches, toBatchesAux,
              batchConsistent, evalPass, compute_metrics, truePos, falsePos, falseNeg,
              exactMatches, countPairs, List.range_succ]
        norm_num)
    (fun _ => by norm_num)
    (by decide)

/-- C5: if some batch of the run computes a non-finite loss, the run aborts with
`TrainingDivergedError` and the artifact writer is never invoked. -/
theorem nonfinite_loss_diverges_no_artifact (oracle : TrainOracle) (input : ConfigInput)
    (trainDisk evalDisk : Option (List RawRecord)) (cfg : RunConfig)
    (trainSet evalSet : List Example) (L : Nat)
    (hcfg : resolveConfig input = .ok cfg)
    (htrain : loadDataset trainDisk = .ok trainSet)
    (heval : loadDataset evalDisk = .ok evalSet)
    (hlen : ∀ x ∈ trainSet, x.input_ids.length = L)
    (hnf : ∃ ep, ep < cfg.epochs ∧ ∃ j, j < (batches cfg.train_batch_size trainSet).length ∧
            oracle.batchLoss ep j = LossVal.nonFinite) :
    (∃ e k, (runPipeline oracle input trainDisk evalDisk).2 =
        .error (.TrainingDivergedError e k)) ∧
    Event.artifactWritten ∉ (runPipeline oracle input trainDisk evalDisk).1 := by
  have hcons : ∀ b ∈ batches cfg.train_batch_size trainSet, batchConsistent b = true :=
    fun b hb => batchConsistent_of_uniform b L
      (fun x hx => hlen x (mem_of_mem_batches _ _ b hb x hx))
  obtain ⟨ep, hep, j, hj, hnfj⟩ := hnf
  obtain ⟨e, k, hrun⟩ := runEpochsFrom_diverges oracle cfg trainSet evalSet hcons
    (List.range cfg.epochs) ⟨ep, List.mem_range.mpr hep, j, hj, hnfj⟩
  have hpipe : runPipeline oracle input trainDisk evalDisk =
      ([.loaderInvoked .train, .loaderInvoked .test],
       .error (.TrainingDivergedError e k)) := by
    simp [runPipeline, hcfg, htrain, heval, runTraining, hrun]
  rw [hpipe]
  exact ⟨⟨e, k, rfl⟩, by simp⟩

/-- Witness for C5: a 1-epoch run over one loaded example whose only batch loss is
non-finite diverges and writes no artifact. -/
theorem nonfinite_loss_diverges_no_artifact_witness :
    (∃ e k, (runPipeline ⟨fun _ _ => .nonFinite, fun _ => [], fun _ => 1, fun _ => 1⟩
        ⟨some 1, some 1, some "m", some "t", some "o"⟩
        (some [⟨some [1], some [1], some 1⟩]) (some [])).2 =
          .error (.TrainingDivergedError e k)) ∧
    Event.artifactWritten ∉ (runPipeline ⟨fun _ _ => .nonFinite, fun _ => [], fun _ => 1, fun _ => 1⟩
        ⟨some 1, some 1, some "m", some "t", some "o"⟩
        (some [⟨some [1], some [1], some 1⟩]) (some [])).1 :=
  nonfinite_loss_diverges_no_artifact
    ⟨fun _ _ => .nonFinite, fun _ => [], fun _ => 1, fun _ => 1⟩
    ⟨some 1, some 1, some "m", some "t", some "o"⟩
    (some [⟨some [1], some [1], some 1⟩]) (some [])
    ⟨1, 1, "m", "t", "o"⟩ [⟨[1], [1], 1⟩] [] 1
    (by rfl) (by rfl) (by rfl) (by simp)
    ⟨0, by decide, 0, by decide, rfl⟩

/-- C6: config resolution rejects a non-positive epoch count or batch size, or a
missing/blank model or tokenizer identifier, with `ConfigError`, before any dataset is
loaded: the pipeline's event trace is empty, so in particular no loader invocation
occurs. -/
theorem resolveConfig_rejects_before_load (oracle : TrainOracle) (input : ConfigInput)
    (trainDisk evalDisk : Option (List RawRecord))
    (hbad : (∃ e, input.epochs = some e ∧ e ≤ 0) ∨
            (∃ b, input.train_batch_size = some b ∧ b ≤ 0) ∨
            missingOrBlank input.model_name = true ∨
            missingOrBlank input.tokenizer_name = true) :
    runPipeline oracle input trainDisk evalDisk = ([], .error .ConfigError) ∧
    ∀ c, Event.loaderInvoked c ∉ (runPipeline oracle input trainDisk evalDisk).1 := by
  have h := resolveConfig_rejects input hbad
  have hpipe : runPipeline oracle input trainDisk evalDisk = ([], .error .ConfigError) := by
    simp [runPipeline, h]
  exact ⟨hpipe, fun c => by rw [hpipe]; simp⟩

/-- Witness for C6: `epochs = 0` is rejected with `ConfigError` and no loader runs. -/
theorem resolveConfig_rejects_before_load_witness :
    runPipeline ⟨fun _ _ => .finite 1, fun _ => [], fun _ => 1, fun _ => 1⟩
        ⟨some 0, some 32, some "m", some "t", some "o"⟩ none none =
      ([], .error .ConfigError) ∧
    ∀ c, Event.loaderInvoked c ∉
      (runPipeline ⟨fun _ _ => .finite 1, fun _ => [], fun _ => 1, fun _ => 1⟩
        ⟨some 0, some 32, some "m", some "t", some "o"⟩ none none).1 :=
  resolveConfig_rejects_before_load
    ⟨fun _ _ => .finite 1, fun _ => [], fun _ => 1, fun _ => 1⟩
    ⟨some 0, some 32, some "m", some "t", some "o"⟩ none none
    (Or.inl ⟨0, rfl, by decide⟩)

/-- C7: when all training Examples share one token-sequence length, a run whose final
batch is smaller than the batch size never raises `BatchShapeError` — that branch is
unreachable for partial-but-consistent batches — and with finite losses the run
completes. -/
theorem trailing_batch_no_shape_error (oracle : TrainOracle) (cfg : RunConfig)
    (trainSet evalSet : List Example) (L : Nat)
    (hlen : ∀ x ∈ trainSet, x.input_ids.length = L) :
    (∀ e k, runTraining oracle cfg trainSet evalSet ≠ .error (.BatchShapeError e k)) ∧
    ((∀ e j, oracle.batchLoss e j ≠ .nonFinite) →
      runTraining oracle cfg trainSet evalSet =
        .ok ((List.range cfg.epochs).map (evalPass oracle evalSet))) := by
  have hcons : ∀ b ∈ batches cfg.train_batch_size trainSet, batchConsistent b = true :=
    fun b hb => batchConsistent_of_uniform b L
      (fun x hx => hlen x (mem_of_mem_batches _ _ b hb x hx))
  constructor
  · intro e k hcontra
    rcases runEpochsFrom_dichotomy oracle cfg trainSet evalSet hcons (List.range cfg.epochs) with
      ⟨ms, hms⟩ | ⟨e', k', hk⟩
    · rw [runTraining, hms] at hcontra; cases hcontra
    · rw [runTraining, hk] at hcontra; simp at hcontra
  · intro hf
    exact runEpochsFrom_clean_ok oracle cfg trainSet evalSet hcons hf (List.range cfg.epochs)

/-- Witness for C7: three uniform examples at batch size 2 — the trailing batch has
only one Example — and the run completes with no `BatchShapeError`. -/
theorem trailing_batch_no_shape_error_witness :
    (∀ e k, runTraining ⟨fun _ _ => .finite 1, fun _ => [1], fun _ => 1, fun _ => 1⟩
        ⟨1, 2, "m", "t", "o"⟩
        [⟨[1, 2], [1, 1], 1⟩, ⟨[3, 4], [1, 1], 0⟩, ⟨[5, 6], [1, 1], 1⟩]
        [⟨[1, 2], [1, 1], 1⟩] ≠ .error (.BatchShapeError e k)) ∧
    ((∀ e j, (⟨fun _ _ => .finite 1, fun _ => [1], fun _ => 1, fun _ => 1⟩ :
        TrainOracle).batchLoss e j ≠ .nonFinite) →
      runTraining ⟨fun _ _ => .finite 1, fun _ => [1], fun _ => 1, fun _ => 1⟩
        ⟨1, 2, "m", "t", "o"⟩
        [⟨[1, 2], [1, 1], 1⟩, ⟨[3, 4], [1, 1], 0⟩, ⟨[5, 6], [1, 1], 1⟩]
        [⟨[1, 2], [1, 1], 1⟩] =
        .ok ((List.range 1).map (evalPass
          ⟨fun _ _ => .finite 1, fun _ => [1], fun _ => 1, fun _ => 1⟩
          [⟨[1, 2], [1, 1], 1⟩]))) :=
  trailing_batch_no_shape_error
    ⟨fun _ _ => .finite 1, fun _ => [1], fun _ => 1, fun _ => 1⟩
    ⟨1, 2, "m", "t", "o"⟩
    [⟨[1, 2], [1, 1], 1⟩, ⟨[3, 4], [1, 1], 0⟩, ⟨[5, 6], [1, 1], 1⟩]
    [⟨[1, 2], [1, 1], 1⟩] 2
    (by simp)

/-! ### Tokenization, dataset loading and data preparation -/

/-- C8: every Example produced by tokenization has token ids and attention mask of the
same fixed length `maxLen`, so every batch formed from tokenized Examples is uniform
in token-sequence length (and in particular shape-consistent). -/
theorem tokenize_fixed_length_batches (tok : String → List Nat) (maxLen padId : Nat)
    (records : List (String × Nat)) :
    (∀ text lab, (tokenize tok maxLen padId text lab).input_ids.length = maxLen ∧
        (tokenize tok maxLen padId text lab).attention_mask.length = maxLen) ∧
    (∀ bs b, b ∈ batches bs (records.map (fun r => tokenize tok maxLen padId r.1 r.2)) →
        (∀ x ∈ b, x.input_ids.length = maxLen) ∧ batchConsistent b = true) := by
  have hlen : ∀ text lab, (tokenize tok maxLen padId text lab).input_ids.length = maxLen ∧
      (tokenize tok maxLen padId text lab).attention_mask.length = maxLen := by
    intro text lab
    constructor <;> simp [tokenize]
  refine ⟨hlen, ?_⟩
  intro bs b hb
  have hx : ∀ x ∈ b, x.input_ids.length = maxLen := by
    intro x hxb
    have hmem := mem_of_mem_batches bs _ b hb x hxb
    obtain ⟨r, hr, rfl⟩ := List.mem_map.mp hmem
    exact (hlen r.1 r.2).1
  exact ⟨hx, batchConsistent_of_uniform b maxLen hx⟩

/-- Witness for C8: a 3-token text truncated and padded to length 2, and the trailing
singleton batch of three tokenized records at batch size 2, all of length 2. -/
theorem tokenize_fixed_length_batches_witness :
    ((tokenize (fun _ => [5, 5, 5]) 2 0 ("a") 1).input_ids.length = 2 ∧
      (tokenize (fun _ => [5, 5, 5]) 2 0 ("a") 1).attention_mask.length = 2) ∧
    ((∀ x ∈ [tokenize (fun _ => [5, 5, 5]) 2 0 ("c") 1], x.input_ids.length = 2) ∧
      batchConsistent [tokenize (fun _ => [5, 5, 5]) 2 0 ("c") 1] = true) :=
  ⟨(tokenize_fixed_length_batches (fun _ => [5, 5, 5]) 2 0
      [("a", 1), ("b", 0), ("c", 1)]).1 ("a") 1,
   (tokenize_fixed_length_batches (fun _ => [5, 5, 5]) 2 0
      [("a", 1), ("b", 0), ("c", 1)]).2 2
      [tokenize (fun _ => [5, 5, 5]) 2 0 ("c") 1] (by decide)⟩

/-- Helper for C9: a successful conversion of the on-disk records is positional —
as many Examples as records, the i-th Example converted from the i-th record. -/
theorem loadRecords_ok : ∀ (records : List RawRecord) (exs : List Example),
    loadRecords records = .ok exs →
    exs.length = records.length ∧
    ∀ i (h1 : i < records.length) (h2 : i < exs.length),
      loadRecord records[i] = .ok exs[i] := by
  intro records
  induction records with
  | nil =>
    intro exs h
    simp only [loadRecords, Except.ok.injEq] at h
    subst h
    exact ⟨rfl, fun i h1 _ => absurd h1 (by simp)⟩
  | cons r rest ih =>
    intro exs h
    cases hr : loadRecord r with
    | error err => simp [loadRecords, hr] at h
    | ok e =>
      cases hrec : loadRecords rest with
      | error err => simp [loadRecords, hr, hrec] at h
      | ok es =>
        simp only [loadRecords, hr, hrec, Except.ok.injEq] at h
        subst h
        obtain ⟨hl, hidx⟩ := ih es hrec
        refine ⟨by simp [hl], ?_⟩
        intro i h1 h2
        cases i with
        | zero => simpa using hr
        | succ j =>
          simp only [List.getElem_cons_succ]
          exact hidx j (by simpa using h1) (by simpa using h2)

/-- C9: the dataset loader is order-preserving and deterministic — a successful load of
a readable path yields exactly one Example per on-disk record, positionally in on-disk
order, and loading is a pure function of the path's contents, so two loads of the same
path are identical. -/
theorem loadDataset_order_preserving (records : List RawRecord) (exs : List Example)
    (hok : loadDataset (some records) = .ok exs) :
    (exs.length = records.length ∧
      ∀ i (h1 : i < records.length) (h2 : i < exs.length),
        loadRecord records[i] = .ok exs[i]) ∧
    ∀ disk : Option (List RawRecord), loadDataset disk = loadDataset disk := by
  refine ⟨loadRecords_ok records exs ?_, fun _ => rfl⟩
  simpa [loadDataset] using hok

/-- Witness for C9 on a two-record on-disk dataset. -/
theorem loadDataset_order_preserving_witness :
    (([(⟨[1], [1], 1⟩ : Example), ⟨[2], [1], 0⟩].length =
        [(⟨some [1], some [1], some 1⟩ : RawRecord), ⟨some [2], some [1], some 0⟩].length) ∧
      ∀ i (_h1 : i < [(⟨some [1], some [1], some 1⟩ : RawRecord),
            ⟨some [2], some [1], some 0⟩].length)
          (_h2 : i < [(⟨[1], [1], 1⟩ : Example), ⟨[2], [1], 0⟩].length),
        loadRecord [(⟨some [1], some [1], some 1⟩ : RawRecord),
            ⟨some [2], some [1], some 0⟩][i] =
          .ok [(⟨[1], [1], 1⟩ : Example), ⟨[2], [1], 0⟩][i]) ∧
    ∀ disk : Option (List RawRecord), loadDataset disk = loadDataset disk :=
  loadDataset_order_preserving
    [⟨some [1], some [1], some 1⟩, ⟨some [2], some [1], some 0⟩]
    [⟨[1], [1], 1⟩, ⟨[2], [1], 0⟩] (by rfl)

/-- C10: the data preparation step keeps exactly 1000 training and exactly 100
evaluation examples out of the shuffled datasets (any permutation of datasets with at
least that many records), before tokenization — so the run operates on exactly 1000
training and 100 evaluation tokenized Examples. -/
theorem data_prep_selects_1000_100 (train test strain stest : List (String × Nat))
    (hptrain : strain.Perm train) (hptest : stest.Perm test)
    (htr : 1000 ≤ train.length) (hte : 100 ≤ test.length)
    (tok : String → List Nat) (maxLen padId : Nat) :
    (selectRange 1000 strain).length = 1000 ∧
    (selectRange 100 stest).length = 100 ∧
    ((selectRange 1000 strain).map (fun r => tokenize tok maxLen padId r.1 r.2)).length
      = 1000 ∧
    ((selectRange 100 stest).map (fun r => tokenize tok maxLen padId r.1 r.2)).length
      = 100 := by
  have h1 : (selectRange 1000 strain).length = 1000 := by
    simp only [selectRange, List.length_take, hptrain.length_eq]
    omega
  have h2 : (selectRange 100 stest).length = 100 := by
    simp only [selectRange, List.length_take, hptest.length_eq]
    omega
  exact ⟨h1, h2, by simp [h1], by simp [h2]⟩

/-- Witness for C10 on identically-shuffled datasets of 25000 records each (the IMDB
train and test split sizes). -/
theorem data_prep_selects_1000_100_witness :
    (selectRange 1000 (List.replicate 25000 (("x"), 1))).length = 1000 ∧
    (selectRange 100 (List.replicate 25000 (("x"), 1))).length = 100 ∧
    ((selectRange 1000 (List.replicate 25000 (("x"), 1))).map
        (fun r => tokenize (fun _ => []) 0 0 r.1 r.2)).length = 1000 ∧
    ((selectRange 100 (List.replicate 25000 (("x"), 1))).map
        (fun r => tokenize (fun _ => []) 0 0 r.1 r.2)).length = 100 :=
  data_prep_selects_1000_100
    (List.replicate 25000 (("x"), 1)) (List.replicate 25000 (("x"), 1))
    (List.replicate 25000 (("x"), 1)) (List.replicate 25000 (("x"), 1))
    (List.Perm.refl _) (List.Perm.refl _)
    (by norm_num) (by norm_num)
    (fun _ => []) 0 0

end FinetuneBert
